import Mathlib

/-!
Verification development for the `red-v-blue` repository, a sandboxed
self-replication training demo.  The authoritative source is
`src/replicant_v1.2.py` (class `WormDemo` plus the module-level helpers
`sha256`, `is_within`, `validate_cfg` and the `CFG` dictionary); the legacy
revisions under `src/legacy/` are consulted only as historical context.

Shallow embedding conventions:

* A filesystem path is a list of name components relative to the process
  working directory, which plays the role of the absolute root.  Python's
  `Path.resolve()` (no symlinks are modelled) becomes `resolve`, which
  normalises `".."`, `"."` and empty components.
* The filesystem is a record of existing directories, regular files with
  their byte content (modelled as `String`), and a set of fault paths at
  which file creation raises `OSError` (the I/O fault model).
* `sys.exit(n)` is modelled by the `Outcome.exited n` result of an
  operation; log/print output is modelled by a list of `Msg` values
  (the logging sink is external per the spec, so only the *decisions*
  carried by the messages are modelled, not their text).  Log text appended
  to the log file by the attached `FileHandler` is abstracted away: the
  model only records that attaching the logger creates the log file.
* `random.randint(10_000, 99_999)` becomes an explicit token parameter of
  the demo operation; `tempfile.NamedTemporaryFile` yields a fresh name,
  modelled by the reserved component `ntfName`.
* The running script (`Path(__file__).resolve()`) is modelled as the file
  `selfSrcPath` in the working directory.
-/

namespace Replicant

/-- A filesystem path: components relative to the working directory. -/
abbrev Path := List String

/-- One step of path normalisation, as performed by `Path.resolve()`:
empty and `"."` components vanish, `".."` pops (staying at the root). -/
def normStep (acc : Path) (c : String) : Path :=
  if c = "" then acc
  else if c = "." then acc
  else if c = ".." then acc.dropLast
  else acc ++ [c]

/-- Resolve a raw component list to its canonical form relative to the
working directory (the model of `Path.resolve()` without symlinks). -/
def resolve (p : Path) : Path := p.foldl normStep []

/-- Split a raw name on `/` into components, the model of how `pathlib`
parses a string (POSIX rules; backslash is an ordinary character). -/
def splitComps : List Char → List Char → List String
  | [], cur => [cur.reverse.asString]
  | c :: rest, cur =>
    if c = '/' then cur.reverse.asString :: splitComps rest []
    else splitComps rest (c :: cur)

/-- Components of a configured name string. -/
def comps (s : String) : Path := splitComps s.data []

/-- Model of `is_within(child, parent)` from `replicant_v1.2.py` lines
77-82: both sides are resolved and the call succeeds iff the resolved
parent is a (possibly improper) prefix of the resolved child. -/
def isWithin (child parent : Path) : Bool :=
  (resolve parent).isPrefixOf (resolve child)

/-- The filesystem state. -/
structure FS where
  dirs : List Path
  files : List (Path × String)
  bad : List Path
  deriving DecidableEq, Repr

/-- The working-directory root always exists as a directory. -/
def FS.isDir (fs : FS) (p : Path) : Bool :=
  p = [] || fs.dirs.contains p

/-- Look up the content of a regular file at a resolved path. -/
def lookFn : List (Path × String) → Path → Option String
  | [], _ => none
  | (q, c) :: rest, p => if q = p then some c else lookFn rest p

/-- Content of the file at resolved path `p`, if one exists. -/
def FS.lookupFile (fs : FS) (p : Path) : Option String := lookFn fs.files p

/-- Whether a regular file exists at a resolved path. -/
def FS.isFile (fs : FS) (p : Path) : Bool := (fs.lookupFile p).isSome

/-- Model of `Path.exists()`: true for files and directories alike. -/
def FS.existsPath (fs : FS) (p : Path) : Bool := fs.isFile p || fs.isDir p

/-- Remove every entry stored under the given path. -/
def dropKey : List (Path × String) → Path → List (Path × String)
  | [], _ => []
  | e :: rest, p =>
    if e.1 = p then dropKey rest p else e :: dropKey rest p

/-- Insert (create or overwrite) a regular file. -/
def FS.insertFile (fs : FS) (p : Path) (c : String) : FS :=
  { fs with files := (p, c) :: dropKey fs.files p }

/-- Remove a regular file if present. -/
def FS.eraseFile (fs : FS) (p : Path) : FS :=
  { fs with files := dropKey fs.files p }

/-- Model of `open(p, "wb")`/`write_text`: fails (as `OSError`) when the
target is a directory, is a configured fault path, or its parent
directory is missing; otherwise creates or truncates the file. -/
def FS.createFile (fs : FS) (p : Path) (c : String) : Option FS :=
  if fs.isDir p then none
  else if fs.bad.contains p then none
  else if ¬ fs.isDir p.dropLast then none
  else some (fs.insertFile p c)

/-- One `mkdir` step: succeeds idempotently on an existing directory,
fails when a regular file occupies the path (`FileExistsError`). -/
def mkdir1 (fs : FS) (p : Path) : FS × Bool :=
  if fs.isDir p then (fs, true)
  else if fs.isFile p then (fs, false)
  else ({ fs with dirs := p :: fs.dirs }, true)

/-- Model of `Path.mkdir(parents=True, exist_ok=True)` on a raw path:
each raw prefix is resolved and created in turn, stopping at the first
failure (as `os.makedirs` does), leaving earlier creations in place. -/
def mkdirP (fs : FS) (raw : Path) : FS × Bool :=
  raw.inits.foldl
    (fun st pre => if st.2 then mkdir1 st.1 (resolve pre) else st)
    (fs, true)

/-- Model of `os.replace(tmp, dst)`: fails when the destination is a
directory or a fault path, otherwise atomically renames the temporary
file onto the destination. -/
def FS.osReplace (fs : FS) (tmp dst : Path) : Option FS :=
  if fs.isDir dst then none
  else if fs.bad.contains dst then none
  else some ((fs.eraseFile tmp).insertFile dst ((fs.lookupFile tmp).getD ""))

/-- Model of `Path.unlink(missing_ok=True)`: fails only when the path is
a directory. -/
def FS.unlinkF (fs : FS) (p : Path) : Option FS :=
  if fs.isDir p then none else some (fs.eraseFile p)

/-- Remove a whole subtree, the model of `shutil.rmtree`. -/
def FS.removeTree (fs : FS) (p : Path) : FS :=
  { fs with
    dirs := fs.dirs.filter (fun q => ¬ p.isPrefixOf q)
    files := fs.files.filter (fun e => ¬ p.isPrefixOf e.1) }

/-- Remove one file, used to model the user running `rm sandbox_w/STOP`
between invocations (the runbook's step for arming a demo). -/
def FS.removeFile (fs : FS) (p : Path) : FS := fs.eraseFile p

/-- The static configuration, `CFG` in `replicant_v1.2.py`.  Numeric
fields are integers so that the validator's sign checks are meaningful. -/
structure Cfg where
  sandbox : String
  replica_dir : String
  hosts_root : String
  host_count : Int
  limit : Int
  marker : String
  logfile : String
  deriving DecidableEq, Repr

/-- The reserved-name blocklist, `RESERVED_NAMES` at line 60. -/
def reservedNames : List String := ["CON", "PRN", "AUX", "NUL", "COM1", "LPT1"]

/-- Character-level check of `any(ch in v for ch in "/\\")`. -/
def hasSep (s : String) : Bool := s.data.any (fun c => c = '/' || c = '\\')

/-- Validity of one name-valued field as checked by `validate_cfg`:
not a reserved name and free of path separators.  (The Python
`isinstance(v, str)` check is discharged by typing; v1.2 has no
non-emptiness check.) -/
def validName (s : String) : Bool :=
  ¬ reservedNames.contains s && ¬ hasSep s

/-- Model of `validate_cfg` (`replicant_v1.2.py` lines 84-96): limit is a
non-negative integer, host count lies in 0..10, and each name field
passes `validName`.  The check is pure. -/
def validateCfg (c : Cfg) : Bool :=
  (0 ≤ c.limit) && (0 ≤ c.host_count) && (c.host_count ≤ 10) &&
  validName c.sandbox && validName c.replica_dir && validName c.hosts_root &&
  validName c.marker && validName c.logfile

/-- Modelled from the spec: the §4.1 contract for `ConfigValidator`, which
additionally requires every name-valued field to be a **non-empty**
string.  Stated for comparison with `validateCfg`, the definition taken
from the source. -/
def validateSpec (c : Cfg) : Bool :=
  (0 ≤ c.limit) && (0 ≤ c.host_count) && (c.host_count ≤ 10) &&
  (¬ (c.sandbox = "") && validName c.sandbox) &&
  (¬ (c.replica_dir = "") && validName c.replica_dir) &&
  (¬ (c.hosts_root = "") && validName c.hosts_root) &&
  (¬ (c.marker = "") && validName c.marker) &&
  (¬ (c.logfile = "") && validName c.logfile)

/-- The shipped configuration `CFG` of `replicant_v1.2.py`. -/
def shippedCfg : Cfg :=
  { sandbox := "sandbox_w", replica_dir := "replicas", hosts_root := "hosts",
    host_count := 3, limit := 3, marker := "STOP", logfile := "w_demo.log" }

/-- Decimal digits of a positive number, least significant first, with
structural fuel (the model of Python's decimal integer formatting). -/
def decLS : Nat → Nat → List Nat
  | 0, _ => []
  | _ + 1, 0 => []
  | f + 1, n + 1 => ((n + 1) % 10) :: decLS f ((n + 1) / 10)

/-- Decimal rendering of a natural number, as an f-string would print it. -/
def toDecimal (n : Nat) : String :=
  if n = 0 then "0" else ((decLS n n).reverse.map Nat.digitChar).asString

/-- Name of the `idx`-th replica, `_replica_name` at line 170. -/
def replicaName (idx : Nat) : String := "w_copy_" ++ toDecimal idx ++ ".py"

/-- Name of the in-sandbox staging file `.tmp_replica_{idx}.py`. -/
def tmpReplicaName (idx : Nat) : String :=
  ".tmp_replica_" ++ toDecimal idx ++ ".py"

/-- Name of the in-sandbox staging file `.tmp_host_{i}_{idx}.py`. -/
def tmpHostName (i idx : Nat) : String :=
  ".tmp_host_" ++ toDecimal i ++ "_" ++ toDecimal idx ++ ".py"

/-- Name of the `i`-th mock host directory. -/
def hostName (i : Nat) : String := "host_" ++ toDecimal i

/-- The single temporary name drawn by `tempfile.NamedTemporaryFile`
(the random suffix is abstracted to one reserved name). -/
def ntfName : String := "ntf_tmp"

/-- Name of the payload note file written by `_payload`. -/
def noteName : String := "friendly_note.txt"

/-- Content of the payload note. -/
def noteText : String := "Hello from the harmless demo payload. Stay safe.\n"

/-- Resolved location of the running script, `Path(__file__).resolve()`. -/
def selfSrcPath : Path := ["replicant_v1.2.py"]

/-- Raw component list of the sandbox root. -/
def sandboxRaw (cfg : Cfg) : Path := comps cfg.sandbox

/-- Resolved sandbox root. -/
def sandboxPath (cfg : Cfg) : Path := resolve (sandboxRaw cfg)

/-- Raw component list of the replica directory `sandbox / replica_dir`. -/
def replicasRaw (cfg : Cfg) : Path := sandboxRaw cfg ++ comps cfg.replica_dir

/-- Resolved replica directory. -/
def replicasPath (cfg : Cfg) : Path := resolve (replicasRaw cfg)

/-- Resolved kill-switch marker path `sandbox / marker`. -/
def markerPath (cfg : Cfg) : Path := resolve (sandboxRaw cfg ++ comps cfg.marker)

/-- Raw component list of the mock-hosts root `sandbox / hosts_root`. -/
def hostsRaw (cfg : Cfg) : Path := sandboxRaw cfg ++ comps cfg.hosts_root

/-- Resolved log-file path `sandbox / logfile`. -/
def logPath (cfg : Cfg) : Path := resolve (sandboxRaw cfg ++ comps cfg.logfile)

/-- Resolved replica directory of mock host `i`,
`(hosts_root / f"host_{i}" / replica_dir).resolve()`. -/
def hostRepDir (cfg : Cfg) (i : Nat) : Path :=
  resolve (hostsRaw cfg ++ [hostName i] ++ comps cfg.replica_dir)

/-- Does a name match the glob pattern `w_copy_*.py`? -/
def matchesReplica (s : String) : Bool :=
  "w_copy_".data.isPrefixOf s.data && ".py".data.isSuffixOf s.data &&
  10 ≤ s.data.length

/-- Entries (files and directories) of the filesystem. -/
def FS.entries (fs : FS) : List Path := fs.files.map (fun e => e.1) ++ fs.dirs

/-- Number of children of directory `dirR` matching `w_copy_*.py`
(`glob` matches directories as well as files). -/
def countMatching (fs : FS) (dirR : Path) : Nat :=
  (fs.entries.filter (fun p =>
    dirR.isPrefixOf p && p.length = dirR.length + 1 &&
    matchesReplica (p.getLastD ""))).length

/-- Model of `_next_index` (lines 172-174): `glob` on a non-directory
yields no entries, so the count is taken only when the replica directory
exists as a directory. -/
def nextIndex (fs : FS) (cfg : Cfg) : Nat :=
  (if fs.isDir (replicasPath cfg) then countMatching fs (replicasPath cfg)
   else 0) + 1

/-- Resolved destination of the next primary replica,
`(self.replicas / self._replica_name(idx)).resolve()`. -/
def primaryDst (cfg : Cfg) (fs : FS) : Path :=
  resolve (replicasRaw cfg ++ [replicaName (nextIndex fs cfg)])

/-- Structured log/print messages emitted by the operations.  Only the
decision content is modelled; formatting is external. -/
inductive Msg
  | logAttached
  | fileLoggerWarn
  | configError
  | sandboxReady
  | initFailed
  | notInitialized
  | stopBlocked
  | replicated (dst : Path)
  | checksums
  | payloadOk (p : Path)
  | payloadWarn
  | hostEscaped (i : Nat)
  | spreadTo (i : Nat) (dst : Path)
  | replicaEscaped
  | replicationFailed
  | cleanupDone
  | cleanupFailed
  | statusNotInitialized
  | statusReport (stop : Bool) (limit : Int) (copies : List (Path × String))
      (hosts : List (Nat × Nat))
  deriving DecidableEq, Repr

/-- Result of a process invocation: normal return or `sys.exit(n)`. -/
inductive Outcome
  | ok
  | exited (n : Nat)
  deriving DecidableEq, Repr

/-- Model of `_atomic_write(src, dst)` (lines 147-152): make the
destination's parent, create the named temporary file there with the
source bytes, then `os.replace` it onto the destination.  The boolean is
false when an `OSError` occurred; the returned state is the state at the
point of failure (a failed replace leaves the temporary file behind). -/
def atomicWrite (fs : FS) (src dstR : Path) : FS × Bool :=
  let content := (fs.lookupFile src).getD ""
  let st := mkdirP fs dstR.dropLast
  if ¬ st.2 then (st.1, false)
  else
    let tmpP := dstR.dropLast ++ [ntfName]
    match st.1.createFile tmpP content with
    | none => (st.1, false)
    | some fs2 =>
      match fs2.osReplace tmpP dstR with
      | none => (fs2, false)
      | some fs3 => (fs3, true)

/-- Model of `_payload(target_dir)` (lines 159-166): write the note,
downgrading any failure to a warning. -/
def payloadWrite (fs : FS) (dirR : Path) : FS × List Msg :=
  match fs.createFile (dirR ++ [noteName]) noteText with
  | some fs1 => (fs1, [.payloadOk (dirR ++ [noteName])])
  | none => (fs, [.payloadWarn])

/-- One simulated-spread iteration for host `i` (lines 205-218).  The
boolean result is true when an `OSError` escaped the iteration (which
aborts the whole `demo` call via the outer handler). -/
def stepHost (cfg : Cfg) (payload : Bool) (data : String) (idx : Nat)
    (fs : FS) (i : Nat) : FS × List Msg × Bool :=
  let hrd := hostRepDir cfg i
  if ¬ isWithin hrd (sandboxPath cfg) then (fs, [.hostEscaped i], false)
  else
    let hostDst := hrd ++ [replicaName idx]
    let tmpH := resolve (sandboxRaw cfg ++ [tmpHostName i idx])
    match fs.createFile tmpH data with
    | none => (fs, [], true)
    | some fs1 =>
      let aw := atomicWrite fs1 tmpH hostDst
      if ¬ aw.2 then (aw.1, [], true)
      else
        match aw.1.unlinkF tmpH with
        | none => (aw.1, [], true)
        | some fs3 =>
          let pl := if payload then payloadWrite fs3 hrd else (fs3, [])
          (pl.1, .spreadTo i hostDst :: pl.2, false)

/-- The simulated-spread loop over the host indices, stopping at the
first iteration whose `OSError` escapes (boolean result true). -/
def spreadLoop (cfg : Cfg) (payload : Bool) (data : String) (idx : Nat) :
    FS → List Nat → FS × List Msg × Bool
  | fs, [] => (fs, [], false)
  | fs, i :: rest =>
    let st := stepHost cfg payload data idx fs i
    if st.2.2 then (st.1, st.2.1, true)
    else
      let r := spreadLoop cfg payload data idx st.1 rest
      (r.1, st.2.1 ++ r.2.1, r.2.2)

/-- Host indices `range(1, host_count + 1)`. -/
def hostIdxs (cfg : Cfg) : List Nat := List.range' 1 cfg.host_count.toNat

/-- Model of `_make_polymorph` (lines 154-157): append an unused comment
banner carrying the random token. -/
def makePolymorph (base : String) (tok : Nat) : String :=
  base ++ ("\n# POLY:" ++ toDecimal tok ++ " unused comment to vary hash\n")

/-- Model of `WormDemo.demo` (lines 175-222), the core `replicateOnce`
operation, with the random polymorph token made explicit. -/
def demoMethod (cfg : Cfg) (polymorph spread payload : Bool) (tok : Nat)
    (fs : FS) : FS × List Msg × Outcome :=
  if ¬ fs.existsPath (sandboxPath cfg) then (fs, [.notInitialized], .exited 2)
  else if fs.existsPath (markerPath cfg) then (fs, [.stopBlocked], .ok)
  else
    let idx := nextIndex fs cfg
    let dst := primaryDst cfg fs
    if isWithin dst (sandboxPath cfg) then
      match fs.lookupFile selfSrcPath with
      | none => (fs, [.replicationFailed], .exited 4)
      | some base =>
        let data := if polymorph then makePolymorph base tok else base
        let tmpSrc := resolve (sandboxRaw cfg ++ [tmpReplicaName idx])
        match fs.createFile tmpSrc data with
        | none => (fs, [.replicationFailed], .exited 4)
        | some fs1 =>
          let aw := atomicWrite fs1 tmpSrc dst
          if ¬ aw.2 then (aw.1, [.replicationFailed], .exited 4)
          else
            match aw.1.unlinkF tmpSrc with
            | none => (aw.1, [.replicationFailed], .exited 4)
            | some fs3 =>
              let pl := if payload then payloadWrite fs3 (replicasPath cfg)
                        else (fs3, [])
              if spread && 0 < cfg.host_count then
                let sp := spreadLoop cfg payload data idx pl.1 (hostIdxs cfg)
                if sp.2.2 then
                  (sp.1,
                   .replicated dst :: .checksums :: (pl.2 ++ sp.2.1 ++
                     [.replicationFailed]), .exited 4)
                else
                  (sp.1, .replicated dst :: .checksums :: (pl.2 ++ sp.2.1),
                   .ok)
              else (pl.1, .replicated dst :: .checksums :: pl.2, .ok)
    else (fs, [.replicaEscaped], .ok)

/-- Model of `WormDemo.init` (lines 124-145). -/
def initMethod (cfg : Cfg) (fs : FS) : FS × List Msg × Outcome :=
  let st := mkdirP fs (sandboxRaw cfg)
  if ¬ st.2 then (st.1, [.initFailed], .exited 1)
  else
    match st.1.createFile (resolve (sandboxRaw cfg ++ ["manifest.json"]))
        "MANIFEST" with
    | none => (st.1, [.initFailed], .exited 1)
    | some fs1 =>
      let step2 :=
        if fs1.existsPath (markerPath cfg) then some fs1
        else fs1.createFile (markerPath cfg) "STOP-EXPLANATION"
      match step2 with
      | none => (fs1, [.initFailed], .exited 1)
      | some fs2 =>
        let st3 := mkdirP fs2 (hostsRaw cfg)
        if ¬ st3.2 then (st3.1, [.initFailed], .exited 1)
        else
          let hres := (hostIdxs cfg).foldl
            (fun acc i =>
              if acc.2 then
                mkdirP acc.1 (hostsRaw cfg ++ [hostName i] ++
                  comps cfg.replica_dir)
              else acc)
            (st3.1, true)
          if ¬ hres.2 then (hres.1, [.initFailed], .exited 1)
          else (hres.1, [.sandboxReady], .ok)

/-- Model of `WormDemo.status` (lines 224-247), the plain-output branch
(`COLORAMA_AVAILABLE = False`).  The method only reads; its report is
recomputed from the filesystem at call time.  Directory entries matched
by the replica glob are listed without content (the source would fail on
them when hashing; no claim depends on that corner). -/
def statusMethod (cfg : Cfg) (fs : FS) : List Msg :=
  if ¬ fs.existsPath (sandboxPath cfg) then [.statusNotInitialized]
  else
    let copies :=
      if fs.isDir (replicasPath cfg) then
        fs.files.filter (fun e =>
          (replicasPath cfg).isPrefixOf e.1 &&
          e.1.length = (replicasPath cfg).length + 1 &&
          matchesReplica (e.1.getLastD ""))
      else []
    let hosts :=
      (hostIdxs cfg).filterMap (fun i =>
        if fs.isDir (resolve (hostsRaw cfg ++ [hostName i])) then
          some (i, if fs.isDir (hostRepDir cfg i) then
                     countMatching fs (hostRepDir cfg i)
                   else 0)
        else none)
    [.statusReport (fs.existsPath (markerPath cfg)) cfg.limit copies
      (if fs.isDir (resolve (hostsRaw cfg)) then hosts else [])]

/-- Model of `WormDemo.cleanup` (lines 249-261): restore the marker
first, then remove the replica tree and recreate an empty hosts root. -/
def cleanupMethod (cfg : Cfg) (fs : FS) : FS × List Msg × Outcome :=
  match fs.createFile (markerPath cfg) "STOP\n" with
  | none => (fs, [.cleanupFailed], .exited 5)
  | some fs1 =>
    let step2 :=
      if fs1.existsPath (replicasPath cfg) then
        if fs1.isFile (replicasPath cfg) then none
        else some (fs1.removeTree (replicasPath cfg))
      else some fs1
    match step2 with
    | none => (fs1, [.cleanupFailed], .exited 5)
    | some fs2 =>
      if fs2.existsPath (resolve (hostsRaw cfg)) then
        if fs2.isFile (resolve (hostsRaw cfg)) then
          (fs2, [.cleanupFailed], .exited 5)
        else
          let st := mkdirP (fs2.removeTree (resolve (hostsRaw cfg)))
            (hostsRaw cfg)
          if ¬ st.2 then (st.1, [.cleanupFailed], .exited 5)
          else (st.1, [.cleanupDone], .ok)
      else (fs2, [.cleanupDone], .ok)

/-- Model of `WormDemo._attach_file_logger` (lines 110-122), run by the
constructor on every invocation: make the sandbox directory, then open
the log file in append mode (creating it when absent); any failure is
downgraded to a warning. -/
def attachLogger (cfg : Cfg) (fs : FS) : FS × List Msg :=
  let st := mkdirP fs (sandboxRaw cfg)
  if ¬ st.2 then (st.1, [.fileLoggerWarn])
  else if st.1.isDir (logPath cfg) then (st.1, [.fileLoggerWarn])
  else if st.1.isFile (logPath cfg) then (st.1, [.logAttached])
  else
    match st.1.createFile (logPath cfg) "" with
    | some fs2 => (fs2, [.logAttached])
    | none => (st.1, [.fileLoggerWarn])

/-- One command of the CLI surface. -/
inductive Op
  | init
  | demo (polymorph spread payload : Bool) (tok : Nat)
  | status
  | cleanup
  deriving DecidableEq, Repr

/-- Model of one process invocation (`main`): validate the configuration
(exit 10 on failure, before any filesystem action), construct `WormDemo`
(which attaches the file logger), then dispatch the command. -/
def runOp (cfg : Cfg) (op : Op) (fs : FS) : FS × List Msg × Outcome :=
  if ¬ validateCfg cfg then (fs, [.configError], .exited 10)
  else
    let at1 := attachLogger cfg fs
    match op with
    | .init =>
      let r := initMethod cfg at1.1
      (r.1, at1.2 ++ r.2.1, r.2.2)
    | .demo m s p tok =>
      let r := demoMethod cfg m s p tok at1.1
      (r.1, at1.2 ++ r.2.1, r.2.2)
    | .status => (at1.1, at1.2 ++ statusMethod cfg at1.1, .ok)
    | .cleanup =>
      let r := cleanupMethod cfg at1.1
      (r.1, at1.2 ++ r.2.1, r.2.2)

/-- Run a sequence of process invocations. -/
def runOps (cfg : Cfg) (ops : List Op) (fs : FS) : FS :=
  ops.foldl (fun s op => (runOp cfg op s).1) fs

/-! ### Concrete fixtures used by the witnesses and counterexamples -/

/-- A fresh working directory holding only the running script. -/
def fsStart : FS := ⟨[], [(selfSrcPath, "SRC")], []⟩

/-- A completely empty working directory. -/
def fsEmpty : FS := ⟨[], [], []⟩

/-- The state after `--init` with the shipped configuration. -/
def fsInit : FS := (runOp shippedCfg .init fsStart).1

/-- The state after the runbook's `rm sandbox_w/STOP`: initialised, with
the kill-switch removed by the user. -/
def fsReady : FS := fsInit.removeFile (markerPath shippedCfg)

/-- Recombine a least-significant-first digit list. -/
def ofDigs (l : List Nat) : Nat := l.foldr (fun d a => d + 10 * a) 0

/-- Classification of the messages the spread loop and the payload
writer can emit; in particular neither emits `replicated`. -/
def auxMsg : Msg → Bool
  | .spreadTo _ _ => true
  | .hostEscaped _ => true
  | .payloadOk _ => true
  | .payloadWarn => true
  | _ => false

/-! ### Claim-specific fixtures -/

/-- Resolved path of the `i`-th primary replica under the shipped
configuration. -/
def rp (i : Nat) : Path := resolve (replicasRaw shippedCfg ++ [replicaName i])

/-- Destination of host `i`'s first replica under the shipped
configuration. -/
def hostDstOf (i : Nat) : Path := hostRepDir shippedCfg i ++ [replicaName 1]

/-- A validated configuration whose sandbox name collides with the
second replica name while the replica directory climbs out of it. -/
def cfgC1 : Cfg :=
  { sandbox := "w_copy_2.py", replica_dir := "..", hosts_root := "hosts",
    host_count := 0, limit := 3, marker := "STOP", logfile := "wlog" }

/-- The shipped configuration with the replica directory replaced by a
parent-directory component (accepted by `validate_cfg`). -/
def cfgDotDot : Cfg := { shippedCfg with replica_dir := ".." }

/-- The shipped configuration with an escaping hosts root. -/
def cfgHostsEscape : Cfg := { shippedCfg with hosts_root := ".." }

/-- The shipped configuration with an empty sandbox name. -/
def cfgEmptyName : Cfg := { shippedCfg with sandbox := "" }

/-- Ready state with an I/O fault injected at host `i`'s destination. -/
def fsReadyBad (i : Nat) : FS := { fsReady with bad := [hostDstOf i] }

/-- Two mutated replications from the ready state with explicit tokens. -/
def mutTrace (t1 t2 : Nat) : FS :=
  runOps shippedCfg [.demo true false false t1, .demo true false false t2]
    fsReady

/-- Two unmutated replications from the ready state. -/
def plainTrace : FS :=
  runOps shippedCfg [.demo false false false 0, .demo false false false 0]
    fsReady

/-- Three demo invocations from the ready state. -/
def fsAfterThree : FS :=
  runOps shippedCfg
    [.demo false false false 0, .demo false false false 0,
     .demo false false false 0] fsReady

/-- Claim C5 as stated: when the path-confinement check fails for the
primary destination, the operation reports a confinement violation with
its own process exit status, distinct from the I/O-failure status 4. -/
def claimC5 : Prop := ∀ (cfg : Cfg) (m s p : Bool) (tok : Nat) (fs : FS),
  validateCfg cfg = true → fs.existsPath (sandboxPath cfg) = true →
  fs.existsPath (markerPath cfg) = false →
  isWithin (primaryDst cfg fs) (sandboxPath cfg) = false →
  ∃ n, ¬ n = 4 ∧ (demoMethod cfg m s p tok fs).2.2 = .exited n

/-- Claim C6 as stated, instantiated at the shipped configuration from
the ready state: an I/O error while writing to any one host is not fatal
to the overall operation nor to the remaining hosts. -/
def claimC6 : Prop := ∀ i : Nat, 1 ≤ i → i ≤ 3 →
  (runOp shippedCfg (.demo false true false 0) (fsReadyBad i)).2.2
      = Outcome.ok ∧
  ∀ j, 1 ≤ j → j ≤ 3 → ¬ j = i →
    Msg.spreadTo j (hostDstOf j)
      ∈ (runOp shippedCfg (.demo false true false 0) (fsReadyBad i)).2.1

/-- Claim C7 as stated: the status operation leaves every prior
filesystem state unchanged. -/
def claimC7 : Prop := ∀ (cfg : Cfg) (fs : FS),
  validateCfg cfg = true → (runOp cfg .status fs).1 = fs

/-- Claim C8 as stated: `validate_cfg` succeeds exactly on the
configurations accepted by the spec's §4.1 contract (which also demands
non-empty names). -/
def claimC8 : Prop := ∀ c : Cfg, validateCfg c = validateSpec c

/-- Claim C9's mutate-on clause as stated: any checksum function applied
to two mutated replicas of the same source always yields two different
values, for every pair of tokens in the `randint` range. -/
def claimC9 : Prop := ∀ (h : String → String) (base : String) (t1 t2 : Nat),
  10000 ≤ t1 → t1 ≤ 99999 → 10000 ≤ t2 → t2 ≤ 99999 →
  ¬ h (makePolymorph base t1) = h (makePolymorph base t2)

/-- The §4.1 validity contract of one name, spelled out as a
proposition. -/
def nameOk (s : String) : Prop :=
  ¬ s ∈ reservedNames ∧ ∀ c ∈ s.data, ¬ c = '/' ∧ ¬ c = '\\'

/-! ### Supporting lemmas about the filesystem primitives -/

theorem lookFn_dropKey (l : List (Path × String)) (p q : Path) :
    lookFn (dropKey l p) q = if q = p then none else lookFn l q := by
  induction l with
  | nil => simp [dropKey, lookFn]
  | cons e rest ih =>
    by_cases he : e.1 = p
    · rw [dropKey, if_pos he, ih]
      by_cases hq : q = p
      · simp [hq]
      · have hne : ¬ e.1 = q := fun hc => hq (by rw [← hc, he])
        simp [hq, lookFn, hne]
    · rw [dropKey, if_neg he]
      by_cases hq : e.1 = q
      · have hqp : ¬ q = p := fun hc => he (by rw [hq, hc])
        simp [lookFn, hq, hqp]
      · simp [lookFn, hq, ih]

theorem lookup_insert (fs : FS) (p : Path) (c : String) (q : Path) :
    (fs.insertFile p c).lookupFile q =
      if q = p then some c else fs.lookupFile q := by
  show lookFn ((p, c) :: dropKey fs.files p) q = _
  by_cases h : q = p
  · simp [lookFn, h]
  · have h' : ¬ p = q := fun hc => h hc.symm
    rw [lookFn, if_neg h', lookFn_dropKey, if_neg h, if_neg h]
    rfl

theorem lookup_erase (fs : FS) (p : Path) (q : Path) :
    (fs.eraseFile p).lookupFile q =
      if q = p then none else fs.lookupFile q := by
  show lookFn (dropKey fs.files p) q = _
  rw [lookFn_dropKey]
  rfl

theorem mkdir1_files (fs : FS) (p : Path) : (mkdir1 fs p).1.files = fs.files := by
  unfold mkdir1
  split
  · rfl
  · split <;> rfl

theorem mkdirFold_files (l : List Path) (st : FS × Bool) :
    (l.foldl (fun st pre => if st.2 then mkdir1 st.1 (resolve pre) else st)
      st).1.files = st.1.files := by
  induction l generalizing st with
  | nil => rfl
  | cons pre rest ih =>
    simp only [List.foldl_cons]
    rw [ih]
    by_cases h2 : st.2 <;> simp [h2, mkdir1_files]

theorem mkdirP_files (fs : FS) (raw : Path) :
    (mkdirP fs raw).1.files = fs.files := by
  unfold mkdirP
  exact mkdirFold_files _ _

theorem lookup_of_files_eq {fs fs' : FS} (h : fs.files = fs'.files)
    (q : Path) : fs.lookupFile q = fs'.lookupFile q := by
  unfold FS.lookupFile
  rw [h]

/-! ### Decimal rendering: correctness and injectivity -/

theorem ofDigs_decLS : ∀ f n, n ≤ f → ofDigs (decLS f n) = n := by
  intro f
  induction f with
  | zero =>
    intro n h
    have : n = 0 := Nat.le_zero.mp h
    subst this
    rfl
  | succ f ih =>
    intro n h
    match n with
    | 0 => rfl
    | m + 1 =>
      show (m + 1) % 10 + 10 * ofDigs (decLS f ((m + 1) / 10)) = m + 1
      have hlt : (m + 1) / 10 < m + 1 :=
        Nat.div_lt_self (Nat.succ_pos m) (by norm_num)
      rw [ih ((m + 1) / 10) (by omega)]
      exact Nat.mod_add_div (m + 1) 10

theorem decLS_lt10 : ∀ f n d, d ∈ decLS f n → d < 10 := by
  intro f
  induction f with
  | zero => intro n d h; simp [decLS] at h
  | succ f ih =>
    intro n d h
    match n with
    | 0 => simp [decLS] at h
    | m + 1 =>
      rcases List.mem_cons.mp h with h1 | h2
      · subst h1; exact Nat.mod_lt _ (by norm_num)
      · exact ih _ _ h2

theorem digitChar_inj10 (d e : Nat) (hd : d < 10) (he : e < 10)
    (h : Nat.digitChar d = Nat.digitChar e) : d = e := by
  have H : ∀ a b : Fin 10, Nat.digitChar a.val = Nat.digitChar b.val → a = b := by
    decide
  have := H ⟨d, hd⟩ ⟨e, he⟩ h
  exact congrArg Fin.val this

theorem mapDC_inj : ∀ xs ys : List Nat, (∀ d ∈ xs, d < 10) →
    (∀ d ∈ ys, d < 10) →
    xs.map Nat.digitChar = ys.map Nat.digitChar → xs = ys := by
  intro xs
  induction xs with
  | nil => intro ys _ _ h; cases ys with
    | nil => rfl
    | cons b bs => simp at h
  | cons a rest ih =>
    intro ys hx hy h
    cases ys with
    | nil => simp at h
    | cons b bs =>
      simp only [List.map_cons, List.cons.injEq] at h
      have ha : a = b := digitChar_inj10 a b (hx a (List.mem_cons_self a rest))
        (hy b (List.mem_cons_self b bs)) h.1
      have hr : rest = bs := ih bs (fun d hd => hx d (List.mem_cons_of_mem _ hd))
        (fun d hd => hy d (List.mem_cons_of_mem _ hd)) h.2
      rw [ha, hr]

theorem toDecimal_inj_pos (a b : Nat) (ha : 0 < a) (hb : 0 < b)
    (h : toDecimal a = toDecimal b) : a = b := by
  unfold toDecimal at h
  rw [if_neg (Nat.pos_iff_ne_zero.mp ha), if_neg (Nat.pos_iff_ne_zero.mp hb)] at h
  have hdata := congrArg String.data h
  simp only [List.asString] at hdata
  have hmap : (decLS a a).reverse.map Nat.digitChar
      = (decLS b b).reverse.map Nat.digitChar := hdata
  have hrev : (decLS a a).reverse = (decLS b b).reverse :=
    mapDC_inj _ _ (fun d hd => decLS_lt10 a a d (List.mem_reverse.mp hd))
      (fun d hd => decLS_lt10 b b d (List.mem_reverse.mp hd)) hmap
  have hds : decLS a a = decLS b b := List.reverse_inj.mp hrev
  have := congrArg ofDigs hds
  rwa [ofDigs_decLS a a (Nat.le_refl a), ofDigs_decLS b b (Nat.le_refl b)] at this

theorem makePolymorph_inj_tok (base : String) (t1 t2 : Nat) (h1 : 0 < t1)
    (h2 : 0 < t2) (h : makePolymorph base t1 = makePolymorph base t2) :
    t1 = t2 := by
  unfold makePolymorph at h
  have hd := congrArg String.data h
  simp only [String.data_append] at hd
  have h3 := List.append_cancel_left hd
  rw [List.append_assoc, List.append_assoc] at h3
  have h4 := List.append_cancel_left h3
  have h5 := List.append_cancel_right h4
  exact toDecimal_inj_pos t1 t2 h1 h2 (String.ext h5)

theorem ne_of_lastD {p q : Path} {a b : String} (hp : p.getLastD "" = a)
    (hq : q.getLastD "" = b) (h : ¬ a = b) : ¬ p = q := by
  intro hc
  exact h (by rw [← hp, hc, hq])

/-! ### First-character facts used to separate the written file names -/

theorem head_append (s t : String) (c : Char)
    (h : s.data.head? = some c) : (s ++ t).data.head? = some c := by
  rw [String.data_append]
  cases hs : s.data with
  | nil => rw [hs] at h; exact absurd h (by simp)
  | cons a as =>
    rw [hs] at h
    exact h

theorem ne_of_head (a b : String) (c d : Char)
    (ha : a.data.head? = some c) (hb : b.data.head? = some d)
    (hcd : ¬ c = d) : ¬ a = b := by
  intro h
  rw [h, hb] at ha
  exact hcd (by injection ha with h2; exact h2.symm)

theorem head_replicaName (idx : Nat) :
    (replicaName idx).data.head? = some 'w' := by
  unfold replicaName
  exact head_append _ _ _ (head_append _ _ _ rfl)

theorem head_tmpReplicaName (idx : Nat) :
    (tmpReplicaName idx).data.head? = some '.' := by
  unfold tmpReplicaName
  exact head_append _ _ _ (head_append _ _ _ rfl)

theorem head_tmpHostName (i idx : Nat) :
    (tmpHostName i idx).data.head? = some '.' := by
  unfold tmpHostName
  exact head_append _ _ _ (head_append _ _ _ (head_append _ _ _
    (head_append _ _ _ rfl)))

theorem ne_replicaName_ntf (idx : Nat) : ¬ replicaName idx = ntfName :=
  ne_of_head _ _ 'w' 'n' (head_replicaName idx) rfl (by decide)

theorem ne_replicaName_note (idx : Nat) : ¬ replicaName idx = noteName :=
  ne_of_head _ _ 'w' 'f' (head_replicaName idx) rfl (by decide)

theorem ne_replicaName_tmpR (idx j : Nat) :
    ¬ replicaName idx = tmpReplicaName j :=
  ne_of_head _ _ 'w' '.' (head_replicaName idx) (head_tmpReplicaName j)
    (by decide)

theorem ne_replicaName_tmpH (idx i j : Nat) :
    ¬ replicaName idx = tmpHostName i j :=
  ne_of_head _ _ 'w' '.' (head_replicaName idx) (head_tmpHostName i j)
    (by decide)

/-! ### Component normality: the generated names survive `resolve` intact -/

theorem len_append_left (s t : String) :
    s.data.length ≤ (s ++ t).data.length := by
  rw [String.data_append, List.length_append]
  omega

theorem comp_normal (s : String) (h : 3 ≤ s.data.length) :
    ¬ s = "" ∧ ¬ s = "." ∧ ¬ s = ".." := by
  refine ⟨?_, ?_, ?_⟩ <;> intro he <;> rw [he] at h <;> exact absurd h (by decide)

theorem replicaName_normal (idx : Nat) :
    ¬ replicaName idx = "" ∧ ¬ replicaName idx = "." ∧
      ¬ replicaName idx = ".." := by
  apply comp_normal
  unfold replicaName
  calc (3 : Nat) ≤ "w_copy_".data.length := by decide
    _ ≤ ("w_copy_" ++ toDecimal idx).data.length := len_append_left _ _
    _ ≤ _ := len_append_left _ _

theorem tmpReplicaName_normal (idx : Nat) :
    ¬ tmpReplicaName idx = "" ∧ ¬ tmpReplicaName idx = "." ∧
      ¬ tmpReplicaName idx = ".." := by
  apply comp_normal
  unfold tmpReplicaName
  calc (3 : Nat) ≤ ".tmp_replica_".data.length := by decide
    _ ≤ (".tmp_replica_" ++ toDecimal idx).data.length := len_append_left _ _
    _ ≤ _ := len_append_left _ _

theorem tmpHostName_normal (i idx : Nat) :
    ¬ tmpHostName i idx = "" ∧ ¬ tmpHostName i idx = "." ∧
      ¬ tmpHostName i idx = ".." := by
  apply comp_normal
  unfold tmpHostName
  calc (3 : Nat) ≤ ".tmp_host_".data.length := by decide
    _ ≤ (".tmp_host_" ++ toDecimal i).data.length := len_append_left _ _
    _ ≤ (".tmp_host_" ++ toDecimal i ++ "_").data.length := len_append_left _ _
    _ ≤ (".tmp_host_" ++ toDecimal i ++ "_" ++ toDecimal idx).data.length :=
        len_append_left _ _
    _ ≤ _ := len_append_left _ _

theorem resolve_append_normal (l : Path) (c : String) (h1 : ¬ c = "")
    (h2 : ¬ c = ".") (h3 : ¬ c = "..") :
    resolve (l ++ [c]) = resolve l ++ [c] := by
  unfold resolve
  rw [List.foldl_append, List.foldl_cons, List.foldl_nil]
  unfold normStep
  rw [if_neg h1, if_neg h2, if_neg h3]

theorem getLastD_concat_path : ∀ (l : Path) (c d : String),
    (l ++ [c]).getLastD d = c
  | [], _, _ => rfl
  | a :: rest, c, _ => by
    rw [List.cons_append, List.getLastD_cons]
    exact getLastD_concat_path rest c a

/-! ### Characterisations of the write primitives -/

theorem createFile_some {fs : FS} {p : Path} {c : String} {fs' : FS}
    (h : fs.createFile p c = some fs') : fs' = fs.insertFile p c := by
  unfold FS.createFile at h
  split at h
  · exact absurd h (by simp)
  · split at h
    · exact absurd h (by simp)
    · split at h
      · exact absurd h (by simp)
      · injection h with h2; exact h2.symm

theorem osReplace_some {fs : FS} {tmp dst : Path} {fs' : FS}
    (h : fs.osReplace tmp dst = some fs') :
    fs' = (fs.eraseFile tmp).insertFile dst ((fs.lookupFile tmp).getD "") := by
  unfold FS.osReplace at h
  split at h
  · exact absurd h (by simp)
  · split at h
    · exact absurd h (by simp)
    · injection h with h2; exact h2.symm

theorem unlinkF_some {fs : FS} {p : Path} {fs' : FS}
    (h : fs.unlinkF p = some fs') : fs' = fs.eraseFile p := by
  unfold FS.unlinkF at h
  split at h
  · exact absurd h (by simp)
  · injection h with h2; exact h2.symm

/-- Preservation through `atomicWrite`: a file whose path is neither the
temporary slot nor overwritten with different bytes keeps its content
`data`, provided the copy source also holds `data` (so that even an
overwrite of the destination rewrites the same bytes). -/
theorem aw_pres (fs : FS) (src dstR q : Path) (data : String)
    (hq : fs.lookupFile q = some data) (hsrc : fs.lookupFile src = some data)
    (hqt : ¬ q = dstR.dropLast ++ [ntfName]) :
    (atomicWrite fs src dstR).1.lookupFile q = some data := by
  have hmk : (mkdirP fs dstR.dropLast).1.lookupFile q = some data :=
    (lookup_of_files_eq (mkdirP_files fs dstR.dropLast) q).trans hq
  unfold atomicWrite
  simp only []
  split
  · exact hmk
  · split
    · exact hmk
    · next fs2 heq =>
      have h2 := createFile_some heq
      have hl2 : fs2.lookupFile q = some data := by
        rw [h2, lookup_insert, if_neg hqt]; exact hmk
      split
      · exact hl2
      · next fs3 heq2 =>
        have h3 := osReplace_some heq2
        by_cases hqd : q = dstR
        · rw [h3, lookup_insert, if_pos hqd]
          have htmp : fs2.lookupFile (dstR.dropLast ++ [ntfName]) =
              some ((fs.lookupFile src).getD "") := by
            rw [h2, lookup_insert, if_pos rfl]
          rw [htmp, hsrc]
          rfl
        · rw [h3, lookup_insert, if_neg hqd, lookup_erase, if_neg hqt]
          exact hl2

/-- A successful `atomicWrite` stores the source bytes at the destination. -/
theorem aw_dst (fs : FS) (src dstR : Path) (data : String)
    (hsrc : fs.lookupFile src = some data)
    (hflag : (atomicWrite fs src dstR).2 = true) :
    (atomicWrite fs src dstR).1.lookupFile dstR = some data := by
  unfold atomicWrite at hflag ⊢
  simp only [] at hflag ⊢
  cases hmk2 : (mkdirP fs dstR.dropLast).2 with
  | false => simp [hmk2] at hflag
  | true =>
    simp only [hmk2, not_true, if_false, ite_false, Bool.not_true,
      decide_eq_true_eq, not_true_eq_false] at hflag ⊢
    cases hcf : (mkdirP fs dstR.dropLast).1.createFile
        (dstR.dropLast ++ [ntfName]) ((fs.lookupFile src).getD "") with
    | none => simp [hcf] at hflag
    | some fs2 =>
      simp only [hcf] at hflag ⊢
      cases hor : fs2.osReplace (dstR.dropLast ++ [ntfName]) dstR with
      | none => simp [hor] at hflag
      | some fs3 =>
        simp only [hor] at hflag ⊢
        have h3 := osReplace_some hor
        have h2 := createFile_some hcf
        rw [h3, lookup_insert, if_pos rfl, h2, lookup_insert, if_pos rfl,
          hsrc]
        rfl

/-! ### Invariants of the simulated-spread loop -/

theorem lastD_tmpHostPath (cfg : Cfg) (i idx : Nat) :
    (resolve (sandboxRaw cfg ++ [tmpHostName i idx])).getLastD ""
      = tmpHostName i idx := by
  obtain ⟨h1, h2, h3⟩ := tmpHostName_normal i idx
  rw [resolve_append_normal _ _ h1 h2 h3, getLastD_concat_path]

theorem payload_pres (fs : FS) (dirR q : Path) (data : String)
    (hq : fs.lookupFile q = some data) (hne : ¬ q.getLastD "" = noteName) :
    (payloadWrite fs dirR).1.lookupFile q = some data := by
  unfold payloadWrite
  cases hcf : fs.createFile (dirR ++ [noteName]) noteText with
  | none => simpa only [hcf] using hq
  | some fs1 =>
    simp only [hcf]
    rw [createFile_some hcf, lookup_insert,
      if_neg (ne_of_lastD rfl (getLastD_concat_path dirR noteName "")
        hne ∘ Eq.symm ∘ Eq.symm)]
    · exact hq

theorem spread_not_mem_payload (fs : FS) (d : Path) (j : Nat) (q : Path) :
    ¬ Msg.spreadTo j q ∈ (payloadWrite fs d).2 := by
  unfold payloadWrite
  cases hcf : fs.createFile (d ++ [noteName]) noteText <;> simp [hcf]

theorem stepHost_pres (cfg : Cfg) (payload : Bool) (data : String)
    (idx : Nat) (fs : FS) (i : Nat) (q : Path)
    (hq : fs.lookupFile q = some data)
    (hlast : q.getLastD "" = replicaName idx) :
    (stepHost cfg payload data idx fs i).1.lookupFile q = some data := by
  have hqtmpH : ¬ q = resolve (sandboxRaw cfg ++ [tmpHostName i idx]) :=
    ne_of_lastD hlast (lastD_tmpHostPath cfg i idx)
      (ne_replicaName_tmpH idx i idx)
  unfold stepHost
  simp only []
  split
  · exact hq
  · split
    · exact hq
    · next fs1 hcf =>
      have h1 := createFile_some hcf
      have hl1 : fs1.lookupFile q = some data := by
        rw [h1, lookup_insert, if_neg hqtmpH]; exact hq
      have hsrc1 : fs1.lookupFile
          (resolve (sandboxRaw cfg ++ [tmpHostName i idx])) = some data := by
        rw [h1, lookup_insert, if_pos rfl]
      have hawp := aw_pres fs1 _ (hostRepDir cfg i ++ [replicaName idx]) q
        data hl1 hsrc1
        (ne_of_lastD hlast (getLastD_concat_path _ ntfName "")
          (ne_replicaName_ntf idx))
      split
      · exact hawp
      · split
        · exact hawp
        · next fs3 hun =>
          have h3 := unlinkF_some hun
          have hl3 : fs3.lookupFile q = some data := by
            rw [h3, lookup_erase, if_neg hqtmpH]; exact hawp
          by_cases hp : payload = true
          · simp only [hp, if_true]
            exact payload_pres _ _ q data hl3
              (fun hc => ne_replicaName_note idx (hlast ▸ hc))
          · simp only [hp, if_false]
            simp only [Bool.not_eq_true] at hp
            simp only [hp, Bool.false_eq_true, if_false]
            exact hl3

theorem stepHost_spreadMem (cfg : Cfg) (payload : Bool) (data : String)
    (idx : Nat) (fs : FS) (i j : Nat) (q : Path)
    (hmem : Msg.spreadTo j q ∈ (stepHost cfg payload data idx fs i).2.1) :
    (stepHost cfg payload data idx fs i).1.lookupFile q = some data ∧
      q.getLastD "" = replicaName idx := by
  unfold stepHost at hmem ⊢
  simp only [] at hmem ⊢
  by_cases hw : isWithin (hostRepDir cfg i) (sandboxPath cfg) = true
  case neg =>
    simp only [hw, Bool.false_eq_true, not_false_eq_true, if_true] at hmem
    simp at hmem
  case pos =>
    simp only [hw, not_true_eq_false, if_false] at hmem ⊢
    cases hcf : fs.createFile (resolve (sandboxRaw cfg ++ [tmpHostName i idx]))
        data with
    | none => simp only [hcf] at hmem; simp at hmem
    | some fs1 =>
      simp only [hcf] at hmem ⊢
      by_cases haw : (atomicWrite fs1
          (resolve (sandboxRaw cfg ++ [tmpHostName i idx]))
          (hostRepDir cfg i ++ [replicaName idx])).2 = true
      case neg =>
        simp only [haw, not_false_eq_true, if_true,
          Bool.not_eq_true] at hmem
        revert hmem
        split <;> intro hmem <;> simp at hmem
      case pos =>
        simp only [haw, not_true_eq_false, if_false] at hmem ⊢
        cases hun : (atomicWrite fs1
            (resolve (sandboxRaw cfg ++ [tmpHostName i idx]))
            (hostRepDir cfg i ++ [replicaName idx])).1.unlinkF
            (resolve (sandboxRaw cfg ++ [tmpHostName i idx])) with
        | none => simp only [hun] at hmem; simp at hmem
        | some fs3 =>
          simp only [hun] at hmem ⊢
          rcases List.mem_cons.mp hmem with heq | hrest
          · have hq : q = hostRepDir cfg i ++ [replicaName idx] := by
              injection heq with _ h2
            subst hq
            have hlast : (hostRepDir cfg i ++ [replicaName idx]).getLastD ""
                = replicaName idx := getLastD_concat_path _ _ _
            refine ⟨?_, hlast⟩
            have hsrc1 : fs1.lookupFile
                (resolve (sandboxRaw cfg ++ [tmpHostName i idx]))
                = some data := by
              rw [createFile_some hcf, lookup_insert, if_pos rfl]
            have hdst := aw_dst fs1 _ _ data hsrc1 haw
            have hl3 : fs3.lookupFile
                (hostRepDir cfg i ++ [replicaName idx]) = some data := by
              rw [unlinkF_some hun, lookup_erase,
                if_neg (ne_of_lastD hlast (lastD_tmpHostPath cfg i idx)
                  (ne_replicaName_tmpH idx i idx))]
              exact hdst
            by_cases hp : payload = true
            · simp only [hp, if_true]
              exact payload_pres _ _ _ data hl3
                (fun hc => ne_replicaName_note idx (hlast ▸ hc))
            · simp only [Bool.not_eq_true] at hp
              simp only [hp, Bool.false_eq_true, if_false]
              exact hl3
          · exfalso
            revert hrest
            by_cases hp : payload = true
            · simp only [hp, if_true]
              exact spread_not_mem_payload _ _ j q
            · simp only [Bool.not_eq_true] at hp
              simp only [hp, Bool.false_eq_true, if_false]
              simp

theorem spreadLoop_pres (cfg : Cfg) (payload : Bool) (data : String)
    (idx : Nat) :
    ∀ (l : List Nat) (fs : FS) (q : Path),
      fs.lookupFile q = some data → q.getLastD "" = replicaName idx →
      (spreadLoop cfg payload data idx fs l).1.lookupFile q = some data
  | [], _, _, hq, _ => hq
  | i :: rest, fs, q, hq, hlast => by
    unfold spreadLoop
    simp only []
    split
    · exact stepHost_pres cfg payload data idx fs i q hq hlast
    · exact spreadLoop_pres cfg payload data idx rest _ q
        (stepHost_pres cfg payload data idx fs i q hq hlast) hlast

theorem spreadLoop_spreadMem (cfg : Cfg) (payload : Bool) (data : String)
    (idx : Nat) :
    ∀ (l : List Nat) (fs : FS) (j : Nat) (q : Path),
      Msg.spreadTo j q ∈ (spreadLoop cfg payload data idx fs l).2.1 →
      (spreadLoop cfg payload data idx fs l).1.lookupFile q = some data
  | [], _, _, _, hmem => by simp [spreadLoop] at hmem
  | i :: rest, fs, j, q, hmem => by
    unfold spreadLoop at hmem ⊢
    simp only [] at hmem ⊢
    by_cases hab : (stepHost cfg payload data idx fs i).2.2 = true
    · simp only [hab, if_true] at hmem ⊢
      exact (stepHost_spreadMem cfg payload data idx fs i j q hmem).1
    · simp only [Bool.not_eq_true] at hab
      simp only [hab, Bool.false_eq_true, if_false] at hmem ⊢
      rcases List.mem_append.mp hmem with h1 | h2
      · obtain ⟨hlk, hlast⟩ := stepHost_spreadMem cfg payload data idx fs i j
          q h1
        exact spreadLoop_pres cfg payload data idx rest _ q hlk hlast
      · exact spreadLoop_spreadMem cfg payload data idx rest _ j q h2

theorem payload_msgs_aux (fs : FS) (d : Path) :
    ∀ msg ∈ (payloadWrite fs d).2, auxMsg msg = true := by
  unfold payloadWrite
  cases hcf : fs.createFile (d ++ [noteName]) noteText <;>
    simp [hcf, auxMsg]

theorem stepHost_msgs_aux (cfg : Cfg) (payload : Bool) (data : String)
    (idx : Nat) (fs : FS) (i : Nat) :
    ∀ msg ∈ (stepHost cfg payload data idx fs i).2.1, auxMsg msg = true := by
  unfold stepHost
  simp only []
  split
  · simp [auxMsg]
  · split
    · simp
    · split
      · simp
      · split
        · simp
        · intro msg hm
          rcases List.mem_cons.mp hm with heq | hrest
          · subst heq; rfl
          · by_cases hp : payload = true
            · simp only [hp, if_true] at hrest
              exact payload_msgs_aux _ _ msg hrest
            · simp only [Bool.not_eq_true] at hp
              simp only [hp, Bool.false_eq_true, if_false] at hrest
              simp at hrest

theorem spreadLoop_msgs_aux (cfg : Cfg) (payload : Bool) (data : String)
    (idx : Nat) :
    ∀ (l : List Nat) (fs : FS) msg,
      msg ∈ (spreadLoop cfg payload data idx fs l).2.1 → auxMsg msg = true
  | [], _, _, hmem => by simp [spreadLoop] at hmem
  | i :: rest, fs, msg, hmem => by
    unfold spreadLoop at hmem
    simp only [] at hmem
    by_cases hab : (stepHost cfg payload data idx fs i).2.2 = true
    · simp only [hab, if_true] at hmem
      exact stepHost_msgs_aux cfg payload data idx fs i msg hmem
    · simp only [Bool.not_eq_true] at hab
      simp only [hab, Bool.false_eq_true, if_false] at hmem
      rcases List.mem_append.mp hmem with h1 | h2
      · exact stepHost_msgs_aux cfg payload data idx fs i msg h1
      · exact spreadLoop_msgs_aux cfg payload data idx rest _ msg h2

theorem lastD_primaryDst (cfg : Cfg) (fs : FS) :
    (primaryDst cfg fs).getLastD "" = replicaName (nextIndex fs cfg) := by
  unfold primaryDst
  obtain ⟨h1, h2, h3⟩ := replicaName_normal (nextIndex fs cfg)
  rw [resolve_append_normal _ _ h1 h2 h3, getLastD_concat_path]

theorem lastD_tmpSrc (cfg : Cfg) (idx : Nat) :
    (resolve (sandboxRaw cfg ++ [tmpReplicaName idx])).getLastD ""
      = tmpReplicaName idx := by
  obtain ⟨h1, h2, h3⟩ := tmpReplicaName_normal idx
  rw [resolve_append_normal _ _ h1 h2 h3, getLastD_concat_path]

/-- C10: within a single `replicateOnce` call, the primary replica and
every host replica written by the simulated spread contain exactly the
same bytes (the content is computed once before any write and the same
buffer is written everywhere), so all replicas of one call share one
SHA-256 checksum.  Stated over the messages of the call: whatever
destination the call reports as replicated holds some content `d`, and
every host destination the call reports as spread to holds that same
`d` in the final state. -/
theorem C10_one_call_one_content (cfg : Cfg) (m s p : Bool) (tok : Nat) (fs : FS) (dp : Path)
    (hrep : Msg.replicated dp ∈ (demoMethod cfg m s p tok fs).2.1) :
    ∃ d, (demoMethod cfg m s p tok fs).1.lookupFile dp = some d ∧
      ∀ j q, Msg.spreadTo j q ∈ (demoMethod cfg m s p tok fs).2.1 →
        (demoMethod cfg m s p tok fs).1.lookupFile q = some d := by
  unfold demoMethod at hrep ⊢
  simp only [] at hrep ⊢
  by_cases hsb : fs.existsPath (sandboxPath cfg) = true
  case neg =>
    simp only [Bool.not_eq_true] at hsb
    simp only [hsb, Bool.false_eq_true, not_false_eq_true, if_true] at hrep
    simp at hrep
  case pos =>
  simp only [hsb, not_true_eq_false, if_false] at hrep ⊢
  by_cases hmk : fs.existsPath (markerPath cfg) = true
  case pos =>
    simp only [hmk, if_true] at hrep
    simp at hrep
  case neg =>
  simp only [Bool.not_eq_true] at hmk
  simp only [hmk, Bool.false_eq_true, if_false] at hrep ⊢
  by_cases hw : isWithin (primaryDst cfg fs) (sandboxPath cfg) = true
  case neg =>
    simp only [Bool.not_eq_true] at hw
    simp only [hw, Bool.false_eq_true, if_false] at hrep
    simp at hrep
  case pos =>
  simp only [hw, if_true] at hrep ⊢
  cases hself : fs.lookupFile selfSrcPath with
  | none =>
    simp only [hself] at hrep
    simp at hrep
  | some base =>
  simp only [hself] at hrep ⊢
  cases hcf : fs.createFile
      (resolve (sandboxRaw cfg ++ [tmpReplicaName (nextIndex fs cfg)]))
      (if m then makePolymorph base tok else base) with
  | none =>
    simp only [hcf] at hrep
    simp at hrep
  | some fs1 =>
  simp only [hcf] at hrep ⊢
  by_cases haw : (atomicWrite fs1
      (resolve (sandboxRaw cfg ++ [tmpReplicaName (nextIndex fs cfg)]))
      (primaryDst cfg fs)).2 = true
  case neg =>
    simp only [Bool.not_eq_true] at haw
    simp only [haw, Bool.false_eq_true, not_false_eq_true, if_true] at hrep
    simp at hrep
  case pos =>
  simp only [haw, not_true_eq_false, if_false] at hrep ⊢
  cases hun : (atomicWrite fs1
      (resolve (sandboxRaw cfg ++ [tmpReplicaName (nextIndex fs cfg)]))
      (primaryDst cfg fs)).1.unlinkF
      (resolve (sandboxRaw cfg ++ [tmpReplicaName (nextIndex fs cfg)])) with
  | none =>
    simp only [hun] at hrep
    simp at hrep
  | some fs3 =>
  simp only [hun] at hrep ⊢
  have hsrc1 : fs1.lookupFile
      (resolve (sandboxRaw cfg ++ [tmpReplicaName (nextIndex fs cfg)]))
      = some (if m then makePolymorph base tok else base) := by
    rw [createFile_some hcf, lookup_insert, if_pos rfl]
  have hdst := aw_dst fs1 _ (primaryDst cfg fs) _ hsrc1 haw
  have hlast : (primaryDst cfg fs).getLastD ""
      = replicaName (nextIndex fs cfg) := lastD_primaryDst cfg fs
  have hnedt : ¬ primaryDst cfg fs
      = resolve (sandboxRaw cfg ++ [tmpReplicaName (nextIndex fs cfg)]) :=
    ne_of_lastD hlast (lastD_tmpSrc cfg _) (ne_replicaName_tmpR _ _)
  have hl3 : fs3.lookupFile (primaryDst cfg fs)
      = some (if m then makePolymorph base tok else base) := by
    rw [unlinkF_some hun, lookup_erase, if_neg hnedt]; exact hdst
  have hpl : (if p then payloadWrite fs3 (replicasPath cfg)
      else (fs3, [])).1.lookupFile (primaryDst cfg fs)
      = some (if m then makePolymorph base tok else base) := by
    by_cases hp : p = true
    · simp only [hp, if_true]
      exact payload_pres _ _ _ _ hl3
        (fun hc => ne_replicaName_note _ (hlast ▸ hc))
    · simp only [Bool.not_eq_true] at hp
      simp only [hp, Bool.false_eq_true, if_false]
      exact hl3
  have hplaux : ∀ msg ∈ (if p then payloadWrite fs3 (replicasPath cfg)
      else (fs3, [])).2, auxMsg msg = true := by
    by_cases hp : p = true
    · simp only [hp, if_true]; exact payload_msgs_aux _ _
    · simp only [Bool.not_eq_true] at hp
      simp only [hp, Bool.false_eq_true, if_false]; simp
  have hplspread : ∀ (j : Nat) (q : Path),
      ¬ Msg.spreadTo j q ∈ (if p then payloadWrite fs3 (replicasPath cfg)
        else (fs3, [])).2 := by
    intro j q
    by_cases hp : p = true
    · simp only [hp, if_true]; exact spread_not_mem_payload _ _ j q
    · simp only [Bool.not_eq_true] at hp
      simp only [hp, Bool.false_eq_true, if_false]; simp
  by_cases hs2 : (s && decide (0 < cfg.host_count)) = true
  case pos =>
    simp only [hs2, if_true] at hrep ⊢
    by_cases hab : (spreadLoop cfg p (if m then makePolymorph base tok
        else base) (nextIndex fs cfg)
        (if p then payloadWrite fs3 (replicasPath cfg) else (fs3, [])).1
        (hostIdxs cfg)).2.2 = true
    case pos =>
      simp only [hab, if_true] at hrep ⊢
      rcases List.mem_cons.mp hrep with h1 | h1
      · have hdp : dp = primaryDst cfg fs := by injection h1
        subst hdp
        refine ⟨_, spreadLoop_pres cfg p _ _ (hostIdxs cfg) _ _ hpl hlast, ?_⟩
        intro j q hq
        rcases List.mem_cons.mp hq with h2 | h2
        · exact absurd h2 (by simp)
        rcases List.mem_cons.mp h2 with h3 | h3
        · exact absurd h3 (by simp)
        rcases List.mem_append.mp h3 with h4 | h4
        · rcases List.mem_append.mp h4 with h5 | h5
          · exact absurd h5 (hplspread j q)
          · exact spreadLoop_spreadMem cfg p _ _ (hostIdxs cfg) _ j q h5
        · exact absurd h4 (by simp)
      · exfalso
        rcases List.mem_cons.mp h1 with h2 | h2
        · exact absurd h2 (by simp)
        rcases List.mem_append.mp h2 with h3 | h3
        · rcases List.mem_append.mp h3 with h4 | h4
          · have := hplaux _ h4; simp [auxMsg] at this
          · have := spreadLoop_msgs_aux cfg p _ _ (hostIdxs cfg) _ _ h4
            simp [auxMsg] at this
        · exact absurd h3 (by simp)
    case neg =>
      simp only [Bool.not_eq_true] at hab
      simp only [hab, Bool.false_eq_true, if_false] at hrep ⊢
      rcases List.mem_cons.mp hrep with h1 | h1
      · have hdp : dp = primaryDst cfg fs := by injection h1
        subst hdp
        refine ⟨_, spreadLoop_pres cfg p _ _ (hostIdxs cfg) _ _ hpl hlast, ?_⟩
        intro j q hq
        rcases List.mem_cons.mp hq with h2 | h2
        · exact absurd h2 (by simp)
        rcases List.mem_cons.mp h2 with h3 | h3
        · exact absurd h3 (by simp)
        rcases List.mem_append.mp h3 with h4 | h4
        · exact absurd h4 (hplspread j q)
        · exact spreadLoop_spreadMem cfg p _ _ (hostIdxs cfg) _ j q h4
      · exfalso
        rcases List.mem_cons.mp h1 with h2 | h2
        · exact absurd h2 (by simp)
        rcases List.mem_append.mp h2 with h3 | h3
        · have := hplaux _ h3; simp [auxMsg] at this
        · have := spreadLoop_msgs_aux cfg p _ _ (hostIdxs cfg) _ _ h3
          simp [auxMsg] at this
  case neg =>
    simp only [Bool.not_eq_true] at hs2
    simp only [hs2, Bool.false_eq_true, if_false] at hrep ⊢
    rcases List.mem_cons.mp hrep with h1 | h1
    · have hdp : dp = primaryDst cfg fs := by injection h1
      subst hdp
      refine ⟨_, hpl, ?_⟩
      intro j q hq
      rcases List.mem_cons.mp hq with h2 | h2
      · exact absurd h2 (by simp)
      rcases List.mem_cons.mp h2 with h3 | h3
      · exact absurd h3 (by simp)
      · exact absurd h3 (hplspread j q)
    · exfalso
      rcases List.mem_cons.mp h1 with h2 | h2
      · exact absurd h2 (by simp)
      · have := hplaux _ h2; simp [auxMsg] at this

/-- Witness for C10: one spread-enabled call from the ready state
reports the primary replica, whose bytes every spread target shares. -/
theorem C10_one_call_one_content_witness :
    Msg.replicated (rp 1)
      ∈ (demoMethod shippedCfg false true false 0 fsReady).2.1 ∧
    ∃ d, (demoMethod shippedCfg false true false 0 fsReady).1.lookupFile
        (rp 1) = some d ∧
      ∀ j q, Msg.spreadTo j q
          ∈ (demoMethod shippedCfg false true false 0 fsReady).2.1 →
        (demoMethod shippedCfg false true false 0 fsReady).1.lookupFile q
          = some d :=
  ⟨by decide, C10_one_call_one_content shippedCfg false true false 0 fsReady
    _ (by decide)⟩

/-- C3: whenever the kill-switch marker exists inside the sandbox,
`replicateOnce` is a no-op for every combination of the mutate, spread
and payload options: the filesystem is returned unchanged, the call is
reported as blocked (an informational message, not an error), and the
process does not exit abnormally. -/
theorem C3_killswitch_blocks (cfg : Cfg) (m s p : Bool) (tok : Nat) (fs : FS)
    (hsb : fs.existsPath (sandboxPath cfg) = true)
    (hmk : fs.existsPath (markerPath cfg) = true) :
    demoMethod cfg m s p tok fs = (fs, [.stopBlocked], .ok) := by
  unfold demoMethod
  rw [if_neg (not_not_intro hsb), if_pos hmk]

/-- Witness for C3 at the freshly initialised state. -/
theorem C3_killswitch_blocks_witness :
    fsInit.existsPath (sandboxPath shippedCfg) = true ∧
    fsInit.existsPath (markerPath shippedCfg) = true ∧
    demoMethod shippedCfg true true true 54321 fsInit
      = (fsInit, [.stopBlocked], .ok) :=
  ⟨by decide, by decide,
    C3_killswitch_blocks shippedCfg true true true 54321 fsInit (by decide)
      (by decide)⟩

/-- C5 counterexample: with the replica directory set to `".."` (which
`validate_cfg` accepts), the confinement check fails for the primary
destination, yet v1.2 merely logs the error and returns normally — there
is no confinement-violation exit status at all (v1.1's `sys.exit(3)` was
dropped), refuting the claim as stated. -/
theorem C5_no_distinct_exit_status : ¬ claimC5 := by
  intro H
  obtain ⟨n, hn4, he⟩ :=
    H cfgDotDot false false false 0 fsReady (by decide) (by decide)
      (by decide) (by decide)
  have hok : (demoMethod cfgDotDot false false false 0 fsReady).2.2
      = Outcome.ok := by decide
  rw [hok] at he
  exact Outcome.noConfusion he

/-- C5 amended: when the path-confinement check fails for the primary
replica destination, `replicateOnce` aborts the entire operation with no
write at all (the state is unchanged), reporting a confinement-violation
error message distinct from the I/O-failure message — but it returns
normally, without the distinct process exit status the claim describes. -/
theorem C5_confinement_abort (cfg : Cfg) (m s p : Bool) (tok : Nat) (fs : FS)
    (hsb : fs.existsPath (sandboxPath cfg) = true)
    (hmk : fs.existsPath (markerPath cfg) = false)
    (hw : isWithin (primaryDst cfg fs) (sandboxPath cfg) = false) :
    demoMethod cfg m s p tok fs = (fs, [.replicaEscaped], .ok) := by
  unfold demoMethod
  rw [if_neg (not_not_intro hsb), if_neg (by simp [hmk])]
  simp only []
  rw [if_neg (by simp [hw])]

/-- Witness for the amended C5. -/
theorem C5_confinement_abort_witness :
    fsReady.existsPath (sandboxPath cfgDotDot) = true ∧
    fsReady.existsPath (markerPath cfgDotDot) = false ∧
    isWithin (primaryDst cfgDotDot fsReady) (sandboxPath cfgDotDot)
      = false ∧
    demoMethod cfgDotDot true true true 77 fsReady
      = (fsReady, [.replicaEscaped], .ok) :=
  ⟨by decide, by decide, by decide,
    C5_confinement_abort cfgDotDot true true true 77 fsReady (by decide)
      (by decide) (by decide)⟩

/-- C6 counterexample: an I/O fault at host 1's destination is fatal to
the whole call — the outer exception handler exits with status 4 before
hosts 2 and 3 are attempted — refuting the claimed partial-success
semantics for I/O errors. -/
theorem C6_io_error_is_fatal : ¬ claimC6 := by
  intro H
  obtain ⟨hok, _⟩ := H 1 (by decide) (by decide)
  exact absurd hok (by decide)

/-- C6 amended: a **confinement** failure for one host is logged as a
warning and that host is skipped, with the loop continuing over the
remaining hosts and the overall operation unaffected; an **I/O error**
during a host write, however, aborts the whole call with the replication
I/O-failure exit status 4, skipping the remaining hosts, while the
already-written primary replica persists on disk. -/
theorem C6_host_failure_semantics :
    (∀ (cfg : Cfg) (payload : Bool) (data : String) (idx : Nat) (fs : FS)
        (i : Nat) (rest : List Nat),
      isWithin (hostRepDir cfg i) (sandboxPath cfg) = false →
      spreadLoop cfg payload data idx fs (i :: rest) =
        ((spreadLoop cfg payload data idx fs rest).1,
         .hostEscaped i :: (spreadLoop cfg payload data idx fs rest).2.1,
         (spreadLoop cfg payload data idx fs rest).2.2)) ∧
    ((runOp shippedCfg (.demo false true false 0) (fsReadyBad 1)).2.2
        = .exited 4 ∧
      (runOp shippedCfg (.demo false true false 0)
        (fsReadyBad 1)).1.lookupFile (rp 1) = some "SRC" ∧
      (runOp shippedCfg (.demo false true false 0)
        (fsReadyBad 1)).1.lookupFile (hostDstOf 2) = none ∧
      ¬ Msg.spreadTo 2 (hostDstOf 2)
        ∈ (runOp shippedCfg (.demo false true false 0)
            (fsReadyBad 1)).2.1) := by
  constructor
  · intro cfg payload data idx fs i rest hw
    have hst : stepHost cfg payload data idx fs i
        = (fs, [.hostEscaped i], false) := by
      unfold stepHost
      rw [if_pos (by simp [hw])]
    conv_lhs => rw [spreadLoop]
    simp only [hst, Bool.false_eq_true, if_false, List.singleton_append]
  · exact ⟨by decide, by decide, by decide, by decide⟩

/-- Witness for the amended C6's confinement clause, at a configuration
whose hosts root escapes the sandbox. -/
theorem C6_host_failure_semantics_witness :
    isWithin (hostRepDir cfgHostsEscape 1) (sandboxPath cfgHostsEscape)
      = false ∧
    spreadLoop cfgHostsEscape false "SRC" 1 fsReady [1, 2] =
      ((spreadLoop cfgHostsEscape false "SRC" 1 fsReady [2]).1,
       .hostEscaped 1 ::
         (spreadLoop cfgHostsEscape false "SRC" 1 fsReady [2]).2.1,
       (spreadLoop cfgHostsEscape false "SRC" 1 fsReady [2]).2.2) :=
  ⟨by decide,
    C6_host_failure_semantics.1 cfgHostsEscape false "SRC" 1 fsReady 1 [2]
      (by decide)⟩

/-- C7 counterexample: running the status operation on an empty working
directory creates the sandbox directory and the log file (the `WormDemo`
constructor attaches the file logger before `status` runs), so the
operation is not read-only as claimed. -/
theorem C7_status_not_readonly : ¬ claimC7 := fun H =>
  absurd (H shippedCfg fsEmpty (by decide)) (by decide)

/-- C7 amended: the `status` method itself is read-only and derives its
report purely from the filesystem at call time, but the dispatched
operation first runs the constructor's logger attachment, whose creation
of the sandbox directory and log file is the operation's only
filesystem effect. -/
theorem C7_status_effect_is_attach (cfg : Cfg) (fs : FS)
    (hv : validateCfg cfg = true) :
    runOp cfg .status fs = ((attachLogger cfg fs).1,
      (attachLogger cfg fs).2 ++ statusMethod cfg (attachLogger cfg fs).1,
      .ok) := by
  unfold runOp
  rw [if_neg (not_not_intro hv)]

/-- Witness for the amended C7. -/
theorem C7_status_effect_is_attach_witness :
    validateCfg shippedCfg = true ∧
    runOp shippedCfg .status fsStart = ((attachLogger shippedCfg fsStart).1,
      (attachLogger shippedCfg fsStart).2 ++
        statusMethod shippedCfg (attachLogger shippedCfg fsStart).1,
      .ok) :=
  ⟨by decide, C7_status_effect_is_attach shippedCfg fsStart (by decide)⟩

/-- C8 counterexample: v1.2's `validate_cfg` accepts a configuration
whose sandbox name is the empty string, which the spec's contract (and
the claim) rejects — the non-emptiness check of v1.1 was dropped. -/
theorem C8_empty_name_accepted : ¬ claimC8 := by
  intro H
  have h := H cfgEmptyName
  rw [show validateCfg cfgEmptyName = true by decide,
    show validateSpec cfgEmptyName = false by decide] at h
  exact Bool.noConfusion h

/-- C8 amended: `validate_cfg` succeeds iff the limit is a non-negative
integer, the host count is an integer between 0 and the ceiling 10, and
every name-valued field contains no path separator and is not a
reserved device-like name — with no non-emptiness requirement; the check
is pure (a boolean function of the configuration alone). -/
theorem C8_validate_characterisation (c : Cfg) : validateCfg c = true ↔
    (0 ≤ c.limit ∧ 0 ≤ c.host_count ∧ c.host_count ≤ 10 ∧
     nameOk c.sandbox ∧ nameOk c.replica_dir ∧ nameOk c.hosts_root ∧
     nameOk c.marker ∧ nameOk c.logfile) := by
  simp [validateCfg, validName, hasSep, nameOk, not_or, and_assoc]

/-- C9 counterexample: `random.randint` can draw the same token twice
(e.g. 10000 and 10000), in which case the two mutated replicas are
byte-identical and every checksum function yields equal values — the
claimed "always different" fails. -/
theorem C9_token_collision : ¬ claimC9 := fun H =>
  H id "BASE" 10000 10000 (by decide) (by decide) (by decide) (by decide)
    rfl

/-- C9 amended: with `mutate=false` two replicas created from the same
source hold identical bytes (hence identical SHA-256 checksums); with
`mutate=true` the replica written by a call with token `t` consists of
the source bytes plus the token-`t` comment banner, and two such
contents — hence their checksums — differ whenever the two random
tokens differ; when the tokens collide (probability 1/90000 per pair)
the bytes and checksums coincide, so "always different" fails. -/
theorem C9_mutation_checksum_semantics :
    (∀ (base : String) (t1 t2 : Nat), 10000 ≤ t1 → t1 ≤ 99999 →
      10000 ≤ t2 → t2 ≤ 99999 → ¬ t1 = t2 →
      ¬ makePolymorph base t1 = makePolymorph base t2) ∧
    plainTrace.lookupFile (rp 1) = plainTrace.lookupFile (rp 2) ∧
    (mutTrace 10000 10001).lookupFile (rp 1)
      = some (makePolymorph "SRC" 10000) ∧
    (mutTrace 10000 10001).lookupFile (rp 2)
      = some (makePolymorph "SRC" 10001) := by
  refine ⟨?_, by decide, by decide, by decide⟩
  intro base t1 t2 hl1 hu1 hl2 hu2 hne heq
  exact hne (makePolymorph_inj_tok base t1 t2 (by omega) (by omega) heq)

/-- Witness for the amended C9 at the token pair (10000, 10001). -/
theorem C9_mutation_checksum_semantics_witness :
    ((10000 : Nat) ≤ 10000 ∧ (10000 : Nat) ≤ 99999 ∧
      (10000 : Nat) ≤ 10001 ∧ (10001 : Nat) ≤ 99999 ∧
      ¬ (10000 : Nat) = 10001) ∧
    ¬ makePolymorph "SRC" 10000 = makePolymorph "SRC" 10001 := by
  refine ⟨by decide, ?_⟩
  exact C9_mutation_checksum_semantics.1 "SRC" 10000 10001 (by decide)
    (by decide) (by decide) (by decide) (by decide)

/-- C1 evaluation at the failing input: the validator accepts `cfgC1`,
whose resolved primary destination equals the sandbox root itself (the
path guard accepts equality); `_atomic_write` then creates its named
temporary file in the destination's parent — the working directory,
outside the sandbox — and fills it with the replica bytes before
`os.replace` fails, leaving a file outside the sandbox root on disk. -/
theorem C1_escape_eval :
    validateCfg cfgC1 = true ∧
    fsStart.lookupFile ["ntf_tmp"] = none ∧
    (runOp cfgC1 (.demo false false false 0) fsStart).1.lookupFile
      ["ntf_tmp"] = some "SRC" ∧
    (sandboxPath cfgC1).isPrefixOf ["ntf_tmp"] = false ∧
    (runOp cfgC1 (.demo false false false 0) fsStart).2.2 = .exited 4 := by
  refine ⟨by decide, by decide, by decide, by decide, by decide⟩

/-- C2 evaluation at the failing input: with the shipped limit of 3, the
fourth demo invocation is not a "limit reached" no-op — v1.2 never
compares the next index against the limit — and happily creates
`w_copy_4.py`, reporting a successful replication. -/
theorem C2_limit_not_enforced :
    shippedCfg.limit = 3 ∧
    fsAfterThree.lookupFile (rp 3) = some "SRC" ∧
    fsAfterThree.lookupFile (rp 4) = none ∧
    (runOp shippedCfg (.demo false false false 0) fsAfterThree).2.1
      = [.logAttached, .replicated (rp 4), .checksums] ∧
    (runOp shippedCfg (.demo false false false 0)
      fsAfterThree).1.lookupFile (rp 4) = some "SRC" := by
  refine ⟨by decide, by decide, by decide, by decide, by decide⟩

/-- C4 evaluation at the failing input: invoking the demo operation on a
fresh working directory with no sandbox does not fail with the
NotInitialized exit status 2 — the constructor's logger attachment has
already created the sandbox by the time `demo` checks for it — and the
call instead replicates successfully without any prior `init`. -/
theorem C4_not_initialized_unreachable :
    fsStart.existsPath (sandboxPath shippedCfg) = false ∧
    (runOp shippedCfg (.demo false false false 0) fsStart).2.2 = .ok ∧
    ¬ (runOp shippedCfg (.demo false false false 0) fsStart).2.2
        = .exited 2 ∧
    (runOp shippedCfg (.demo false false false 0) fsStart).1.lookupFile
      (rp 1) = some "SRC" := by
  refine ⟨by decide, by decide, by decide, by decide⟩

end Replicant
